import Mathlib

/-
Verification of the Chirpy authentication and session-token subsystem.

The Go sources are embedded shallowly:
- `internal/auth/auth.go` (password hashing, JWT issuing/validation, bearer
  extraction) becomes pure Lean functions;
- the HTTP handlers of `internal/api/endpoints.go` (login, refresh, revoke)
  become pure functions from a database state, the request headers and the
  current instant to an outcome (HTTP status plus body) and a new state;
- the third-party argon2id and HMAC-SHA256 primitives are modelled
  symbolically: the KDF and the MAC are concrete deterministic functions,
  the MAC tag records the signing key and the signed payload (a perfect,
  unforgeable MAC), and the argon2id hash string keeps the real
  `$argon2id$v=19$params$salt$key` shape so that malformed strings are
  rejected exactly as the library rejects them.

Time is modelled as integer seconds; `time.Time.Before` becomes `<` on `Int`.
-/

namespace Chirpy

/-- Instants in seconds, as compared by `time.Time.Before`. -/
abbrev Instant := Int

/- ## Lowercase-letter encodings

The random parts of the real system (base64 argon2id keys, UUID strings)
are strings over a restricted alphabet.  We model them as base-26 strings
over the letters a..z, produced from natural numbers.  The encoding is
fuel-based so that it reduces inside `decide`. -/

/-- The k-th lowercase letter (k taken mod 26). -/
def keyChar (k : Nat) : Char := Char.ofNat (97 + k % 26)

/-- Base-26 digits of `n`, least significant first, as lowercase letters.
`fuel` bounds the recursion; `fuel ≥ n` suffices. -/
def natToKeyAux : Nat → Nat → List Char
  | 0, _ => []
  | fuel + 1, n => if n = 0 then [] else keyChar (n % 26) :: natToKeyAux fuel (n / 26)

/-- Lowercase-letter encoding of a natural number. -/
def natToKey (n : Nat) : List Char := natToKeyAux n n

/-- Numeric value of a lowercase letter. -/
def charVal (c : Char) : Nat := c.toNat - 97

/-- Decoding inverse of `natToKey`. -/
def keyToNat : List Char → Nat
  | [] => 0
  | c :: rest => charVal c + 26 * keyToNat rest

/-- Is `c` a lowercase letter a..z? -/
def isKeyChar (c : Char) : Bool := 97 ≤ c.toNat && c.toNat ≤ 122

theorem keyChar_spec : ∀ j, j < 26 →
    isKeyChar (Char.ofNat (97 + j)) = true ∧ charVal (Char.ofNat (97 + j)) = j ∧
      Char.ofNat (97 + j) ≠ Char.ofNat 36 := by decide

theorem isKeyChar_keyChar (k : Nat) : isKeyChar (keyChar k) = true :=
  (keyChar_spec (k % 26) (Nat.mod_lt _ (by omega))).1

theorem charVal_keyChar (k : Nat) : charVal (keyChar k) = k % 26 :=
  (keyChar_spec (k % 26) (Nat.mod_lt _ (by omega))).2.1

theorem keyChar_ne_dollar (k : Nat) : keyChar k ≠ '$' := by
  have h := (keyChar_spec (k % 26) (Nat.mod_lt _ (by omega))).2.2
  have hd : ('$' : Char) = Char.ofNat 36 := by decide
  rw [keyChar, hd]
  exact h

theorem natToKeyAux_mem {fuel n : Nat} {c : Char} (h : c ∈ natToKeyAux fuel n) :
    ∃ k, c = keyChar k := by
  induction fuel generalizing n with
  | zero => simp [natToKeyAux] at h
  | succ fuel ih =>
    rw [natToKeyAux] at h
    by_cases h0 : n = 0
    · simp [h0] at h
    · simp [h0] at h
      rcases h with h | h
      · exact ⟨n % 26, h⟩
      · exact ih h

theorem keyToNat_natToKeyAux {fuel n : Nat} (h : n ≤ fuel) :
    keyToNat (natToKeyAux fuel n) = n := by
  induction fuel generalizing n with
  | zero =>
    have h0 : n = 0 := Nat.le_zero.mp h
    subst h0
    rfl
  | succ fuel ih =>
    rw [natToKeyAux]
    by_cases h0 : n = 0
    · simp [h0, keyToNat]
    · have hd : n / 26 ≤ fuel := by
        have := Nat.div_lt_self (Nat.pos_of_ne_zero h0) (by omega : 1 < 26)
        omega
      simp [h0, keyToNat, charVal_keyChar, ih hd]
      omega

theorem keyToNat_natToKey (n : Nat) : keyToNat (natToKey n) = n :=
  keyToNat_natToKeyAux (Nat.le_refl n)

theorem natToKey_mem {n : Nat} {c : Char} (h : c ∈ natToKey n) : ∃ k, c = keyChar k :=
  natToKeyAux_mem h

/- ## UUIDs

`github.com/google/uuid`: a UUID is a 128-bit value; `String` renders it
canonically and `Parse` inverts the rendering.  We model the value as a
natural number and the canonical rendering as the lowercase-letter encoding;
all the source needs is that `Parse` is a partial inverse of `String`. -/

abbrev UUID := Nat

/-- Model of `uuid.UUID.String`. -/
def uuidString (u : UUID) : String := String.mk (natToKey u)

/-- Model of `uuid.Parse`: accepts exactly the canonical renderings. -/
def uuidParse (s : String) : Option UUID :=
  if s.data.all isKeyChar then some (keyToNat s.data) else none

theorem uuidParse_uuidString (u : UUID) : uuidParse (uuidString u) = some u := by
  have hall : (natToKey u).all isKeyChar = true := by
    rw [List.all_eq_true]
    intro c hc
    obtain ⟨k, rfl⟩ := natToKey_mem hc
    exact isKeyChar_keyChar k
  simp [uuidParse, uuidString, hall, keyToNat_natToKey]

/- ## Access Token Codec — `internal/auth/auth.go`, `MakeJWT` / `ValidateJWT`

`golang-jwt/v5` with `jwt.RegisteredClaims` and `jwt.SigningMethodHS256`.
A serialized token is modelled as its claim set together with its signature;
HMAC-SHA256 is modelled as a perfect MAC whose tag determines the key and
the signed payload.  `jwt.NewNumericDate` truncates to whole seconds, which
our integer instants already are.  `ParseWithClaims` verifies the signature
with the key returned by the key function and validates the registered
claims; for `RegisteredClaims` the only time check is that the current time
is strictly before `ExpiresAt` (the issuer is NOT validated).  The source
then reads the subject and parses it with `uuid.Parse`. -/

structure RegisteredClaims where
  issuer : String
  issuedAt : Instant
  expiresAt : Instant
  subject : String
  deriving Repr, DecidableEq

/-- A symbolic HMAC-SHA256 tag: determined by (and determining) the signing
key and the signed payload — a perfect MAC. -/
structure HmacTag where
  key : String
  payload : RegisteredClaims
  deriving Repr, DecidableEq

def hmacSha256Sign (secret : String) (c : RegisteredClaims) : HmacTag :=
  { key := secret, payload := c }

/-- A signed, serialized JWT: claim set plus HMAC-SHA256 signature. -/
structure JwtToken where
  claims : RegisteredClaims
  sig : HmacTag
  deriving Repr, DecidableEq

/-- `MakeJWT(userID, tokenSecret, expiresIn)`: claims are
issuer "chirpy", issued-at now, expires-at now+expiresIn, subject the
rendered user ID; signed with HMAC-SHA256 under `tokenSecret`.
`now` makes the two `time.Now()` reads explicit (same second). -/
def MakeJWT (userID : UUID) (tokenSecret : String) (expiresIn : Int) (now : Instant) :
    JwtToken :=
  let claim : RegisteredClaims :=
    { issuer := "chirpy"
      issuedAt := now
      expiresAt := now + expiresIn
      subject := uuidString userID }
  { claims := claim, sig := hmacSha256Sign tokenSecret claim }

/-- `ValidateJWT(tokenString, tokenSecret)`: parse fails on a bad signature
or on `ExpiresAt ≤ now` (jwt/v5 requires now strictly before expires-at);
then the subject must parse as a UUID.  No issuer check is performed. -/
def ValidateJWT (token : JwtToken) (tokenSecret : String) (now : Instant) :
    Except String UUID :=
  if token.sig = hmacSha256Sign tokenSecret token.claims then
    if token.claims.expiresAt ≤ now then
      Except.error "token has invalid claims: token is expired"
    else
      match uuidParse token.claims.subject with
      | some id => Except.ok id
      | none => Except.error "invalid UUID format"
  else
    Except.error "token signature is invalid"

/- ## Credential Hasher — `internal/auth/auth.go`,
`HashPassword` / `CheckPasswordHash`

`alexedwards/argon2id`.  `CreateHash` draws a fresh random salt, derives a
key with Argon2id and renders `$argon2id$v=19$m=..,t=..,p=..$salt$key`
(salt and key base64-encoded, hence never containing the separator).
`ComparePasswordAndHash` decodes the hash string (error on a malformed
string), re-derives the key from the presented password and the decoded
salt, and compares in constant time.  The KDF is modelled as a concrete
deterministic function of password and salt whose output uses lowercase
letters only (standing for the base64 output alphabet); the salt is passed
explicitly as the randomness oracle. -/

/-- Fold a string of characters to a number (stands for the Argon2id input ⟦password ∥ salt⟧). -/
def strFold (l : List Char) : Nat :=
  l.foldl (fun a c => a * 1114112 + (c.toNat + 1)) 7

/-- Symbolic Argon2id key derivation: deterministic in (password, salt),
output over the letters a..z. -/
def argonDerive (password salt : List Char) : List Char :=
  natToKey (strFold (password ++ '|' :: salt))

/-- The rendered `m=..,t=..,p=..` field for `argon2id.DefaultParams`. -/
def argonParamsField : List Char := "m=65536,t=1,p=2".data

/-- Render an argon2id hash string from its salt and derived key. -/
def encodeArgonHash (salt key : List Char) : String :=
  String.mk
    ('$' :: ("argon2id".data ++ ('$' :: ("v=19".data ++ ('$' :: (argonParamsField ++
      ('$' :: (salt ++ ('$' :: key)))))))))

/-- Split a character list on the separator, like `strings.Split _ "$"`. -/
def splitDollar : List Char → List (List Char)
  | [] => [[]]
  | c :: rest =>
    if c = '$' then [] :: splitDollar rest
    else
      match splitDollar rest with
      | [] => [[c]]
      | g :: gs => (c :: g) :: gs

/-- Decode an argon2id hash string into its salt and key; `none` on any
string not of the library's format (`argon2id.DecodeHash` error). -/
def decodeArgonHash (hash : String) : Option (List Char × List Char) :=
  match splitDollar hash.data with
  | [[], tag, ver, _params, salt, key] =>
    if tag = "argon2id".data ∧ ver = "v=19".data then some (salt, key) else none
  | _ => none

/-- `argon2id.CreateHash` with the fresh random salt passed explicitly. -/
def argon2idCreateHash (password salt : String) : String :=
  encodeArgonHash salt.data (argonDerive password.data salt.data)

/-- `argon2id.ComparePasswordAndHash`: error on a malformed hash string,
otherwise the constant-time equality of the re-derived key with the stored
key. -/
def argon2idComparePasswordAndHash (password hash : String) : Except String Bool :=
  match decodeArgonHash hash with
  | none => Except.error "argon2id: hash is not in the correct format"
  | some (salt, key) => Except.ok (argonDerive password.data salt == key)

/-- `HashPassword(password)`; the library's fresh salt is the extra
argument (its only error path is a failure of the OS randomness source,
which the state-free model cannot exhibit). -/
def HashPassword (password salt : String) : String :=
  argon2idCreateHash password salt

/-- `CheckPasswordHash(password, hash)`: any library error yields `false`. -/
def CheckPasswordHash (password hash : String) : Bool :=
  match argon2idComparePasswordAndHash password hash with
  | Except.error _ => false
  | Except.ok m => m

theorem splitDollar_no_dollar {l : List Char} (h : ∀ c ∈ l, c ≠ '$') :
    splitDollar l = [l] := by
  induction l with
  | nil => rfl
  | cons c rest ih =>
    have hc : c ≠ '$' := h c (List.mem_cons_self c rest)
    have hrest : ∀ x ∈ rest, x ≠ '$' := fun x hx => h x (List.mem_cons_of_mem c hx)
    simp [splitDollar, hc, ih hrest]

theorem splitDollar_append {l₁ l₂ : List Char} (h : ∀ c ∈ l₁, c ≠ '$') :
    splitDollar (l₁ ++ '$' :: l₂) = l₁ :: splitDollar l₂ := by
  induction l₁ with
  | nil => simp [splitDollar]
  | cons c rest ih =>
    have hc : c ≠ '$' := h c (List.mem_cons_self c rest)
    have hrest : ∀ x ∈ rest, x ≠ '$' := fun x hx => h x (List.mem_cons_of_mem c hx)
    have hcons : splitDollar (rest ++ '$' :: l₂) = rest :: splitDollar l₂ := ih hrest
    simp [splitDollar, hc, hcons]

theorem splitDollar_cons_dollar (l : List Char) :
    splitDollar ('$' :: l) = [] :: splitDollar l := by
  simp [splitDollar]

theorem decodeArgonHash_encodeArgonHash {salt key : List Char}
    (hs : ∀ c ∈ salt, c ≠ '$') (hk : ∀ c ∈ key, c ≠ '$') :
    decodeArgonHash (encodeArgonHash salt key) = some (salt, key) := by
  have htag : ∀ c ∈ "argon2id".data, c ≠ '$' := by decide
  have hver : ∀ c ∈ "v=19".data, c ≠ '$' := by decide
  have hpar : ∀ c ∈ argonParamsField, c ≠ '$' := by decide
  have hdata :
      (encodeArgonHash salt key).data =
        '$' :: ("argon2id".data ++ ('$' :: ("v=19".data ++ ('$' :: (argonParamsField ++
          ('$' :: (salt ++ ('$' :: key)))))))) := rfl
  rw [decodeArgonHash, hdata, splitDollar_cons_dollar, splitDollar_append htag,
    splitDollar_append hver, splitDollar_append hpar, splitDollar_append hs,
    splitDollar_no_dollar hk]
  simp

theorem argonDerive_no_dollar {p s : List Char} : ∀ c ∈ argonDerive p s, c ≠ '$' := by
  intro c hc
  obtain ⟨k, rfl⟩ := natToKey_mem hc
  exact keyChar_ne_dollar k

/- ## Bearer/Key Extractor — `internal/auth/auth.go`, `GetBearerToken`

`http.Header` is a map from header names to values; `headers.Get(key)`
returns the first value for the key, or `""` when the header is absent.
The handlers only read the exact key "Authorization", so an association
list with first-match lookup is a faithful model. -/

abbrev Headers := List (String × String)

/-- `http.Header.Get`: first value for the key, `""` when absent. -/
def Headers.get (h : Headers) (key : String) : String :=
  match h.find? (fun p => p.fst == key) with
  | some p => p.snd
  | none => ""

/-- `strings.HasPrefix s pre`. -/
def goHasPrefix (s pre : String) : Bool := pre.data.isPrefixOf s.data

/-- `strings.TrimPrefix s pre`: `s` without the leading `pre` when present,
otherwise `s` unchanged. -/
def goTrimPrefix (s pre : String) : String :=
  if pre.data.isPrefixOf s.data then String.mk (s.data.drop pre.data.length) else s

/-- `GetBearerToken(headers)`: the Authorization value must be non-empty and
start with the literal "Bearer " (case-sensitive, single space); the rest of
the value is returned verbatim. -/
def GetBearerToken (headers : Headers) : Except String String :=
  let header := headers.get "Authorization"
  if header = "" ∨ goHasPrefix header "Bearer " = false then
    Except.error "missing Authorization header"
  else
    Except.ok (goTrimPrefix header "Bearer ")

/- ## The persistence collaborator — `chirpy/internal/database`

The generated `database` package (SQL queries over users and
refresh_tokens rows) is not part of the sources under verification; the
operations below are modelled from the spec, sections 4.4 and 6.  A row of
`refresh_tokens`; `RevokedAt` is `sql.NullTime`, modelled as an option. -/

structure User where
  id : UUID
  email : String
  hashedPassword : String
  isChirpyRed : Bool
  deriving Repr, DecidableEq

structure RefreshTokenRecord where
  token : String
  userID : UUID
  createdAt : Instant
  updatedAt : Instant
  expiresAt : Instant
  revokedAt : Option Instant
  deriving Repr, DecidableEq

structure DB where
  users : List User
  refreshTokens : List RefreshTokenRecord
  deriving Repr, DecidableEq

/-- Modelled from the spec: `getUserByEmail(email) → record`
(§6, missing `database` package) — keyed by exact string match. -/
def DB.getUserByEmail (db : DB) (email : String) : Option User :=
  db.users.find? (fun u => u.email == email)

/-- Modelled from the spec: `getRefreshToken(token) → record`
(§4.4 Lookup, §6, missing `database` package) — exact string match against
stored tokens. -/
def DB.getRefreshToken (db : DB) (tok : String) : Option RefreshTokenRecord :=
  db.refreshTokens.find? (fun r => r.token == tok)

/-- Modelled from the spec: `createRefreshToken(token, userID, createdAt,
expiresAt)` (§6, missing `database` package) — persists a new row keyed by
the token string (primary key); fails when the row cannot be stored, the
representable cause being a key already present. -/
def DB.createRefreshToken (db : DB) (r : RefreshTokenRecord) : Except String DB :=
  if db.refreshTokens.any (fun x => x.token == r.token) then
    Except.error "duplicate key value violates unique constraint"
  else
    Except.ok { db with refreshTokens := db.refreshTokens ++ [r] }

/-- Modelled from the spec: `revokeRefreshToken(token, revokedAt)`
(§4.4 Revoke, §6, missing `database` package) — sets revoked-at to the given
instant if not already set (revoke is monotonic: an already-set revoked-at
keeps its first-set value); error when no row has the token. -/
def DB.revokeRefreshToken (db : DB) (tok : String) (t : Instant) : Except String DB :=
  if db.refreshTokens.any (fun r => r.token == tok) then
    Except.ok
      { db with
        refreshTokens := db.refreshTokens.map (fun r =>
          if r.token == tok then
            { r with revokedAt := some (r.revokedAt.getD t), updatedAt := t }
          else r) }
  else
    Except.error "no rows matched"

/- ## Session Manager — `internal/api/endpoints.go`

Each handler becomes a pure function of the configuration secret, the
database state, the request data and the current instant; the outcome
records the HTTP status code and the response body, with `respondWithError`
bodies carried as their message strings.  `time.Now()` reads within one
handler are identified as the single instant `now`. -/

/-- Outcome of `RefreshTokenHandler`: a fresh access token, or an error
status and message. -/
inductive RefreshResult where
  | ok (status : Nat) (accessToken : JwtToken)
  | err (status : Nat) (message : String)
  deriving Repr, DecidableEq

def RefreshResult.isSuccess : RefreshResult → Bool
  | .ok _ _ => true
  | .err _ _ => false

/-- `RefreshTokenHandler`: extract the bearer token, reject an empty one,
look up the refresh-token row; 401 when absent, 401 when
`ExpiresAt.Before(now)`, 401 when `RevokedAt.Valid`; otherwise respond 200
with a fresh one-hour JWT for the row's user. -/
def RefreshTokenHandler (secret : String) (db : DB) (headers : Headers)
    (now : Instant) : RefreshResult :=
  match GetBearerToken headers with
  | Except.error _ => RefreshResult.err 401 "Missing Authorization header"
  | Except.ok token =>
    if token = "" then RefreshResult.err 401 "Invalid token"
    else
      match db.getRefreshToken token with
      | none => RefreshResult.err 401 "Invalid token"
      | some refreshToken =>
        if refreshToken.expiresAt < now then
          RefreshResult.err 401 "Refresh token expired"
        else if refreshToken.revokedAt.isSome then
          RefreshResult.err 401 "Refresh token revoked"
        else
          RefreshResult.ok 200 (MakeJWT refreshToken.userID secret 3600 now)

/-- Success body of `LoginUser` (the user row fields plus both tokens). -/
structure LoginBody where
  id : UUID
  email : String
  isChirpyRed : Bool
  token : JwtToken
  refreshToken : String
  deriving Repr, DecidableEq

inductive LoginResult where
  | ok (status : Nat) (body : LoginBody)
  | err (status : Nat) (message : String)
  deriving Repr, DecidableEq

/-- `LoginUser`: look up the user by email (401 "Incorrect email or
password" on a miss), check the password (same 401 on a mismatch), issue a
one-hour JWT, persist a 60-day refresh token (500 on a persistence
failure, aborting the login), else respond 200 with both tokens.
`freshToken` is the random string of `auth.MakeRefreshToken` (modelled from
the spec §4.4 Create: a cryptographically random opaque token, passed here
as the randomness oracle; the function body is not under src). -/
def LoginUser (secret : String) (db : DB) (email password freshToken : String)
    (now : Instant) : LoginResult × DB :=
  match db.getUserByEmail email with
  | none => (LoginResult.err 401 "Incorrect email or password", db)
  | some user =>
    if CheckPasswordHash password user.hashedPassword = false then
      (LoginResult.err 401 "Incorrect email or password", db)
    else
      let accessToken := MakeJWT user.id secret 3600 now
      match db.createRefreshToken
          { token := freshToken
            userID := user.id
            createdAt := now
            updatedAt := now
            expiresAt := now + 60 * 24 * 3600
            revokedAt := none } with
      | Except.error _ => (LoginResult.err 500 "Failed to generate refresh token", db)
      | Except.ok db2 =>
        (LoginResult.ok 200
          { id := user.id
            email := user.email
            isChirpyRed := user.isChirpyRed
            token := accessToken
            refreshToken := freshToken }, db2)

inductive RevokeResult where
  | ok (status : Nat)
  | err (status : Nat) (message : String)
  deriving Repr, DecidableEq

/-- `RevokeRefreshToken` handler: extract the bearer token (the handler
writes a 401 and, the flow reaching the empty-token check with an empty
token, returns; the first written status wins), reject an empty token, then
revoke the row at the current instant; 500 when the persistence call fails,
else 204. -/
def RevokeRefreshTokenHandler (db : DB) (headers : Headers) (now : Instant) :
    RevokeResult × DB :=
  match GetBearerToken headers with
  | Except.error _ => (RevokeResult.err 401 "Missing Authorization header", db)
  | Except.ok token =>
    if token = "" then (RevokeResult.err 401 "Invalid token", db)
    else
      match db.revokeRefreshToken token now with
      | Except.error _ => (RevokeResult.err 500 "Failed to revoke refresh token", db)
      | Except.ok db2 => (RevokeResult.ok 204, db2)

/- ## Claim theorems -/

/-- A correctly signed token whose expiry lies strictly in the future and
whose subject parses validates to that subject, whatever its other claims. -/
theorem validateJWT_signed (c : RegisteredClaims) (s : String) (now : Instant)
    (u : UUID) (hexp : now < c.expiresAt) (hsub : uuidParse c.subject = some u) :
    ValidateJWT { claims := c, sig := hmacSha256Sign s c } s now = Except.ok u := by
  unfold ValidateJWT
  rw [if_pos rfl, if_neg (Int.not_le.mpr hexp), hsub]

/-- C3: For every user ID u, secret s, and positive ttl, verifying the token
issued by Issue(u, s, ttl) with the same secret s, at any time strictly
before issue-time plus ttl, succeeds and returns exactly u. -/
theorem validateJWT_makeJWT_roundtrip (u : UUID) (s : String) (ttl : Int)
    (issueTime now : Instant) (httl : 0 < ttl) (hnow : now < issueTime + ttl) :
    ValidateJWT (MakeJWT u s ttl issueTime) s now = Except.ok u :=
  validateJWT_signed _ s now u hnow (uuidParse_uuidString u)

theorem validateJWT_makeJWT_roundtrip_witness :
    (0 : Int) < 3600 ∧ (10 : Instant) < 0 + 3600 ∧
      ValidateJWT (MakeJWT 42 "sec" 3600 0) "sec" 10 = Except.ok 42 :=
  ⟨by decide, by decide, validateJWT_makeJWT_roundtrip 42 "sec" 3600 0 10 (by decide) (by decide)⟩

/-- C10: Access-token verification does not check the issuer claim: every
token correctly HMAC-signed with the given secret, not yet expired, whose
subject parses as a user identifier, validates to that identifier even when
its issuer differs from the fixed service name "chirpy" set at issuance. -/
theorem validateJWT_ignores_issuer (c : RegisteredClaims) (secret : String)
    (now : Instant) (u : UUID) (hiss : c.issuer ≠ "chirpy")
    (hexp : now < c.expiresAt) (hsub : uuidParse c.subject = some u) :
    ValidateJWT { claims := c, sig := hmacSha256Sign secret c } secret now =
      Except.ok u :=
  validateJWT_signed c secret now u hexp hsub

/-- A claim set carrying an issuer other than the service name. -/
def evilClaims : RegisteredClaims :=
  { issuer := "evil", issuedAt := 0, expiresAt := 100, subject := uuidString 7 }

theorem validateJWT_ignores_issuer_witness :
    evilClaims.issuer ≠ "chirpy" ∧
      ValidateJWT { claims := evilClaims, sig := hmacSha256Sign "sec" evilClaims }
        "sec" 5 = Except.ok 7 :=
  ⟨by decide,
    validateJWT_ignores_issuer evilClaims "sec" 5 7 (by decide) (by decide) (by decide)⟩

/-- C6: For every password p and fresh salt (base64, hence free of the
separator character), verifying p against the hash produced by Hash(p)
returns true. -/
theorem checkPasswordHash_hashPassword (p salt : String)
    (hsalt : ∀ c ∈ salt.data, c ≠ '$') :
    CheckPasswordHash p (HashPassword p salt) = true := by
  unfold CheckPasswordHash argon2idComparePasswordAndHash HashPassword argon2idCreateHash
  rw [decodeArgonHash_encodeArgonHash hsalt argonDerive_no_dollar]
  simp

theorem checkPasswordHash_hashPassword_witness :
    CheckPasswordHash "pw" (HashPassword "pw" "ab") = true :=
  checkPasswordHash_hashPassword "pw" "ab" (by decide)

/-- C7: Password verification is a total boolean function: whenever the
argon2id library reports an error the result is false, and a hash string the
library cannot decode — the empty string and any other malformed string —
yields false rather than a propagated error. -/
theorem checkPasswordHash_never_errors (password hash : String) :
    (∀ e, argon2idComparePasswordAndHash password hash = Except.error e →
      CheckPasswordHash password hash = false)
    ∧ (decodeArgonHash hash = none → CheckPasswordHash password hash = false) := by
  constructor
  · intro e he
    unfold CheckPasswordHash
    rw [he]
  · intro hd
    unfold CheckPasswordHash argon2idComparePasswordAndHash
    rw [hd]

theorem checkPasswordHash_never_errors_witness :
    CheckPasswordHash "p" "" = false ∧
      CheckPasswordHash "p" "not-a-valid-hash" = false :=
  ⟨(checkPasswordHash_never_errors "p" "").2 (by decide),
    (checkPasswordHash_never_errors "p" "not-a-valid-hash").2 (by decide)⟩

/-- C8: An Authorization value beginning with the exact case-sensitive
"Bearer " yields everything after it verbatim — an empty remainder is a
valid empty-string token; a missing header, and any value not carrying that
exact leading string (wrong or wrong-case), yield the missing-credential
error. -/
theorem getBearerToken_contract :
    (∀ (rest : String) (tl : Headers),
      GetBearerToken (("Authorization", "Bearer " ++ rest) :: tl) = Except.ok rest)
    ∧ GetBearerToken [] = Except.error "missing Authorization header"
    ∧ (∀ (v : String) (tl : Headers), goHasPrefix v "Bearer " = false →
      GetBearerToken (("Authorization", v) :: tl) =
        Except.error "missing Authorization header")
    ∧ (∀ hs : Headers, Headers.get hs "Authorization" = "" →
      GetBearerToken hs = Except.error "missing Authorization header") := by
  have hget : ∀ (v : String) (tl : Headers),
      Headers.get (("Authorization", v) :: tl) "Authorization" = v := by
    intro v tl
    simp [Headers.get, List.find?]
  refine ⟨?_, rfl, ?_, ?_⟩
  · intro rest tl
    have hdata : ("Bearer " ++ rest).data = "Bearer ".data ++ rest.data := rfl
    have hne : ("Bearer " ++ rest) ≠ "" := by
      intro h
      have := congrArg String.data h
      rw [hdata] at this
      simp at this
    have hpre : goHasPrefix ("Bearer " ++ rest) "Bearer " = true := by
      rw [goHasPrefix, hdata]
      simp [List.isPrefixOf_iff_prefix]
    unfold GetBearerToken
    rw [hget]
    rw [if_neg (by simp [hne, hpre])]
    unfold goTrimPrefix
    rw [if_pos (by rw [hdata]; simp [List.isPrefixOf_iff_prefix]), hdata]
    rw [show ("Bearer ".data).length = 7 from rfl, show (7 : Nat) = "Bearer ".data.length from rfl]
    rw [List.drop_left]
  · intro v tl hv
    unfold GetBearerToken
    rw [hget]
    rw [if_pos (Or.inr hv)]
  · intro hs hv
    unfold GetBearerToken
    rw [hv]
    rw [if_pos (Or.inl rfl)]

theorem getBearerToken_contract_witness :
    GetBearerToken [("Authorization", "Bearer " ++ "abc123")] = Except.ok "abc123"
    ∧ GetBearerToken [("Authorization", "Bearer " ++ "")] = Except.ok ""
    ∧ GetBearerToken [("Authorization", "bearer abc123")] =
        Except.error "missing Authorization header"
    ∧ GetBearerToken [("X-Other", "y")] = Except.error "missing Authorization header" :=
  ⟨getBearerToken_contract.1 "abc123" [], getBearerToken_contract.1 "" [],
    getBearerToken_contract.2.2.1 "bearer abc123" [] (by decide),
    getBearerToken_contract.2.2.2 [("X-Other", "y")] (by decide)⟩

/- Concrete database states used by the handler claims. -/

/-- A refresh-token row expiring at instant 100, not revoked. -/
def recBoundary : RefreshTokenRecord :=
  { token := "tok", userID := 1, createdAt := 0, updatedAt := 0,
    expiresAt := 100, revokedAt := none }

def dbBoundary : DB := { users := [], refreshTokens := [recBoundary] }

/-- Request headers presenting the bearer token "tok". -/
def hdrAuthTok : Headers := [("Authorization", "Bearer tok")]

def dbNoTok : DB := { users := [], refreshTokens := [] }

/-- A refresh-token row already expired at instant 0. -/
def recExpired : RefreshTokenRecord :=
  { token := "tok", userID := 1, createdAt := -9, updatedAt := -9,
    expiresAt := -1, revokedAt := none }

def dbExpired : DB := { users := [], refreshTokens := [recExpired] }

/-- A refresh-token row revoked at instant 3, not yet expired at instant 50. -/
def recRevoked : RefreshTokenRecord :=
  { token := "tok", userID := 1, createdAt := 0, updatedAt := 3,
    expiresAt := 100, revokedAt := some 3 }

def dbRevoked : DB := { users := [], refreshTokens := [recRevoked] }

/-- C1 counterexample: a stored record whose expires_at equals the current
time (100) and whose revoked_at is null is treated as usable — Refresh
succeeds on it — so the validity predicate is not `expires_at > now`. -/
theorem refresh_usable_at_exact_expiry :
    dbBoundary.getRefreshToken "tok" = some recBoundary
    ∧ recBoundary.expiresAt = 100 ∧ recBoundary.revokedAt = none
    ∧ (RefreshTokenHandler "s" dbBoundary hdrAuthTok 100).isSuccess = true := by
  decide

/-- C1 (amended): the Session Manager treats a stored refresh-token record
as usable exactly when revoked_at is null and expires_at is at or after the
current time (`not ExpiresAt.Before(now)`); a record whose expires_at equals
the current time is still usable and Refresh succeeds on it. -/
theorem refresh_usability_characterization (secret : String) (db : DB)
    (headers : Headers) (now : Instant) (tok : String) (r : RefreshTokenRecord)
    (h1 : GetBearerToken headers = Except.ok tok) (h2 : tok ≠ "")
    (h3 : db.getRefreshToken tok = some r) :
    (RefreshTokenHandler secret db headers now).isSuccess = true ↔
      (r.revokedAt = none ∧ now ≤ r.expiresAt) := by
  unfold RefreshTokenHandler
  rw [h1]
  simp only [h3, if_neg h2]
  by_cases hexp : r.expiresAt < now
  · rw [if_pos hexp]
    constructor
    · intro h
      exact absurd h (by simp [RefreshResult.isSuccess])
    · rintro ⟨-, hle⟩
      exact absurd hle (Int.not_le.mpr hexp)
  · rw [if_neg hexp]
    cases hrev : r.revokedAt with
    | some t =>
      rw [if_pos (show (some t).isSome = true from rfl)]
      constructor
      · intro h
        exact absurd h (by simp [RefreshResult.isSuccess])
      · rintro ⟨hnone, -⟩
        cases hnone
    | none =>
      rw [if_neg (show ¬(none : Option Instant).isSome = true by simp)]
      constructor
      · intro _
        exact ⟨rfl, Int.not_lt.mp hexp⟩
      · intro _
        rfl

theorem refresh_usability_characterization_witness :
    (RefreshTokenHandler "s" dbBoundary hdrAuthTok 100).isSuccess = true ↔
      (recBoundary.revokedAt = none ∧ (100 : Instant) ≤ recBoundary.expiresAt) :=
  refresh_usability_characterization "s" dbBoundary hdrAuthTok 100 "tok" recBoundary
    rfl (by decide) (by decide)

/-- C2 counterexample: the three internal causes — token not found, token
expired, token revoked — all answer 401 but with three distinct body
messages, so the caller can tell them apart; the single outward error the
claim asserts does not hold of the response bodies. -/
theorem refresh_failures_distinguishable :
    RefreshTokenHandler "s" dbNoTok hdrAuthTok 0 = RefreshResult.err 401 "Invalid token"
    ∧ RefreshTokenHandler "s" dbExpired hdrAuthTok 0 =
        RefreshResult.err 401 "Refresh token expired"
    ∧ RefreshTokenHandler "s" dbRevoked hdrAuthTok 50 =
        RefreshResult.err 401 "Refresh token revoked"
    ∧ RefreshTokenHandler "s" dbExpired hdrAuthTok 0 ≠
        RefreshTokenHandler "s" dbNoTok hdrAuthTok 0
    ∧ RefreshTokenHandler "s" dbRevoked hdrAuthTok 50 ≠
        RefreshTokenHandler "s" dbNoTok hdrAuthTok 0 := by
  decide

/-- C2 (amended): for a presented bearer token, each of the three failure
causes — not found, expired, revoked — is answered with the same 401 status,
but with a cause-specific body message ("Invalid token", "Refresh token
expired", "Refresh token revoked"), so only the status code, not the body,
hides the cause. -/
theorem refresh_failures_uniform_status (secret : String) (db : DB)
    (headers : Headers) (now : Instant) (tok : String)
    (h1 : GetBearerToken headers = Except.ok tok) (h2 : tok ≠ "") :
    (db.getRefreshToken tok = none →
      RefreshTokenHandler secret db headers now = RefreshResult.err 401 "Invalid token")
    ∧ (∀ r, db.getRefreshToken tok = some r → r.expiresAt < now →
      RefreshTokenHandler secret db headers now =
        RefreshResult.err 401 "Refresh token expired")
    ∧ (∀ r, db.getRefreshToken tok = some r → ¬r.expiresAt < now →
        r.revokedAt.isSome = true →
      RefreshTokenHandler secret db headers now =
        RefreshResult.err 401 "Refresh token revoked") := by
  refine ⟨?_, ?_, ?_⟩
  · intro hnone
    unfold RefreshTokenHandler
    rw [h1]
    simp only [hnone, if_neg h2]
  · intro r hr hexp
    unfold RefreshTokenHandler
    rw [h1]
    simp only [hr, if_neg h2, if_pos hexp]
  · intro r hr hexp hrev
    unfold RefreshTokenHandler
    rw [h1]
    simp only [hr, if_neg h2, if_neg hexp, if_pos hrev]

theorem refresh_failures_uniform_status_witness :
    RefreshTokenHandler "s" dbRevoked hdrAuthTok 50 =
      RefreshResult.err 401 "Refresh token revoked" :=
  (refresh_failures_uniform_status "s" dbRevoked hdrAuthTok 50 "tok"
    rfl (by decide)).2.2 recRevoked (by decide) (by decide) (by decide)

/-- C4: a login failing because no credential record matches the email and a
login failing because the password does not match the stored hash return the
very same outward result — 401 with body "Incorrect email or password" — and
leave the database untouched, so the two causes are indistinguishable. -/
theorem login_credential_failures_indistinguishable (secret : String) (db : DB)
    (e1 p1 f1 e2 p2 f2 : String) (n1 n2 : Instant) (u : User)
    (h1 : db.getUserByEmail e1 = none)
    (h2 : db.getUserByEmail e2 = some u)
    (h3 : CheckPasswordHash p2 u.hashedPassword = false) :
    LoginUser secret db e1 p1 f1 n1 = LoginUser secret db e2 p2 f2 n2
    ∧ LoginUser secret db e1 p1 f1 n1 =
        (LoginResult.err 401 "Incorrect email or password", db) := by
  unfold LoginUser
  simp only [h1, h2]
  rw [if_pos h3]
  refine ⟨?_, ?_⟩ <;> trivial

/-- The one stored user: id 7, email a@b.com, password "pw" hashed with
salt "ab". -/
def storedUser : User :=
  { id := 7, email := "a@b.com", hashedPassword := HashPassword "pw" "ab",
    isChirpyRed := false }

def dbOneUser : DB := { users := [storedUser], refreshTokens := [] }

theorem login_credential_failures_indistinguishable_witness :
    LoginUser "s" dbOneUser "x@y.com" "pw" "ft" 0 =
        LoginUser "s" dbOneUser "a@b.com" "wrong" "ft" 0
    ∧ LoginUser "s" dbOneUser "x@y.com" "pw" "ft" 0 =
        (LoginResult.err 401 "Incorrect email or password", dbOneUser) :=
  login_credential_failures_indistinguishable "s" dbOneUser "x@y.com" "pw" "ft"
    "a@b.com" "wrong" "ft" 0 0 storedUser (by decide) (by decide) (by decide)

/-- C5: when the password check succeeds but the new refresh token cannot be
persisted, login answers 500 "Failed to generate refresh token" and nothing
else: no access token is in the response and the database is unchanged. -/
theorem login_persistence_failure_atomic (secret : String) (db : DB)
    (email password freshToken : String) (now : Instant) (u : User)
    (h1 : db.getUserByEmail email = some u)
    (h2 : CheckPasswordHash password u.hashedPassword = true)
    (h3 : db.refreshTokens.any (fun x => x.token == freshToken) = true) :
    LoginUser secret db email password freshToken now =
      (LoginResult.err 500 "Failed to generate refresh token", db) := by
  unfold LoginUser
  simp only [h1]
  rw [if_neg (by simp [h2])]
  simp [DB.createRefreshToken, h3]

/-- The stored user plus an existing refresh-token row whose key collides
with the fresh token "dup". -/
def recDup : RefreshTokenRecord :=
  { token := "dup", userID := 3, createdAt := 0, updatedAt := 0,
    expiresAt := 9, revokedAt := none }

def dbUserAndDup : DB := { users := [storedUser], refreshTokens := [recDup] }

theorem login_persistence_failure_atomic_witness :
    LoginUser "s" dbUserAndDup "a@b.com" "pw" "dup" 0 =
      (LoginResult.err 500 "Failed to generate refresh token", dbUserAndDup) :=
  login_persistence_failure_atomic "s" dbUserAndDup "a@b.com" "pw" "dup" 0 storedUser
    (by decide) (by decide) (by decide)

/-- C9: revoking via the handler is monotonic and idempotent in effect — a
row whose revoked-at is already set keeps its first-set value through any
further revoke (every row of the new state has the revoked-at it had when
set), and a repeat revocation still answers 204, not an error. -/
theorem revoke_monotonic (db : DB) (headers : Headers) (now : Instant)
    (tok : String) (r : RefreshTokenRecord)
    (h1 : GetBearerToken headers = Except.ok tok) (h2 : tok ≠ "")
    (h3 : db.getRefreshToken tok = some r) :
    (RevokeRefreshTokenHandler db headers now).1 = RevokeResult.ok 204
    ∧ (RevokeRefreshTokenHandler db headers now).2.refreshTokens.length =
        db.refreshTokens.length
    ∧ ∀ i (hi : i < db.refreshTokens.length)
        (hi2 : i < (RevokeRefreshTokenHandler db headers now).2.refreshTokens.length)
        (t : Instant),
        (db.refreshTokens.get ⟨i, hi⟩).revokedAt = some t →
        ((RevokeRefreshTokenHandler db headers now).2.refreshTokens.get ⟨i, hi2⟩).revokedAt
            = some t
        ∧ ((RevokeRefreshTokenHandler db headers now).2.refreshTokens.get ⟨i, hi2⟩).token
            = (db.refreshTokens.get ⟨i, hi⟩).token := by
  have hfind : db.refreshTokens.find? (fun x => x.token == tok) = some r := h3
  have hp := List.find?_some hfind
  have hany : db.refreshTokens.any (fun x => x.token == tok) = true := by
    rw [List.any_eq_true]
    exact ⟨r, List.mem_of_find?_eq_some hfind, hp⟩
  have hrun : RevokeRefreshTokenHandler db headers now =
      (RevokeResult.ok 204,
        { db with
          refreshTokens := db.refreshTokens.map (fun x =>
            if x.token == tok then
              { x with revokedAt := some (x.revokedAt.getD now), updatedAt := now }
            else x) }) := by
    unfold RevokeRefreshTokenHandler
    rw [h1]
    unfold DB.revokeRefreshToken
    simp only [hany, if_neg h2, if_pos]
  rw [hrun]
  refine ⟨rfl, by simp, ?_⟩
  intro i hi hi2 t ht
  simp only [List.get_eq_getElem, List.getElem_map]
  by_cases hmatch : (db.refreshTokens.get ⟨i, hi⟩).token == tok
  · simp only [List.get_eq_getElem] at hmatch ht
    rw [if_pos hmatch]
    simp [ht]
  · simp only [List.get_eq_getElem] at hmatch ht
    rw [if_neg hmatch]
    exact ⟨ht, rfl⟩

theorem revoke_monotonic_witness :
    (RevokeRefreshTokenHandler dbRevoked hdrAuthTok 50).1 = RevokeResult.ok 204
    ∧ (RevokeRefreshTokenHandler dbRevoked hdrAuthTok 50).2.refreshTokens.length =
        dbRevoked.refreshTokens.length
    ∧ ∀ i (hi : i < dbRevoked.refreshTokens.length)
        (hi2 : i < (RevokeRefreshTokenHandler dbRevoked hdrAuthTok 50).2.refreshTokens.length)
        (t : Instant),
        (dbRevoked.refreshTokens.get ⟨i, hi⟩).revokedAt = some t →
        ((RevokeRefreshTokenHandler dbRevoked hdrAuthTok 50).2.refreshTokens.get
            ⟨i, hi2⟩).revokedAt = some t
        ∧ ((RevokeRefreshTokenHandler dbRevoked hdrAuthTok 50).2.refreshTokens.get
            ⟨i, hi2⟩).token = (dbRevoked.refreshTokens.get ⟨i, hi⟩).token :=
  revoke_monotonic dbRevoked hdrAuthTok 50 "tok" recRevoked
    rfl (by decide) (by decide)

end Chirpy
